import Mathlib

/-!
Verification of the libE57Format specification against the sources.

The repository sources under verification are the accessor-wrapper file
`src/StringNode.cpp` (present verbatim) together with the core subsystems
described by the specification (checksummed paged store, bit-packed record
codec, node tree, container).  The wrapper file is embedded directly; the
core subsystems, whose implementation files are not part of the source
snapshot, are modelled from the specification text, and each such
definition says so in its doc comment.
-/

namespace E57

/-- Identifies the node type in the tagged hierarchy, as the `NodeType`
enumeration: Structure, Vector, CompressedVector, Integer, ScaledInteger,
Float, String, Blob. -/
inductive NodeType
  | TypeStructure
  | TypeVector
  | TypeCompressedVector
  | TypeInteger
  | TypeScaledInteger
  | TypeFloat
  | TypeString
  | TypeBlob
deriving DecidableEq

/-- Error codes thrown by the wrapper layer, from the `ErrorCode`
enumeration (the subset the embedded code raises). -/
inductive ErrorCode
  | ErrorBadNodeDowncast
  | ErrorImageFileNotOpen
  | ErrorFileReadOnly
  | ErrorInvariantViolation
deriving DecidableEq

/-- A `NodeImpl` object as seen through a smart handle: its identity (the
address the `shared_ptr` holds) and the node type its virtual `type()`
reports. -/
structure NodeImpl where
  implId : Nat
  ntype : NodeType
deriving DecidableEq

/-- A generic `Node` handle: wraps a shared pointer to a `NodeImpl`
(`Node::Node(SharedNodeImplPtr)`). -/
structure Node where
  impl : NodeImpl
deriving DecidableEq

/-- `Node::type()`: reports the underlying object's type tag. -/
def Node.type (n : Node) : NodeType :=
  n.impl.ntype

/-- A `StringNode` handle: wraps a `shared_ptr<StringNodeImpl>`.  A
`StringNodeImpl`'s virtual `type()` always reports `TypeString`, recorded
here as an invariant of the handle. -/
structure StringNode where
  impl : NodeImpl
  impl_string : impl.ntype = NodeType.TypeString

/-- `StringNode::operator Node()` from StringNode.cpp: upcast from
`shared_ptr<StringNodeImpl>` to `SharedNodeImplPtr` and construct a `Node`
object.  A total function: the upcast throws no E57 exception. -/
def StringNode.toNode (s : StringNode) : Node :=
  ⟨s.impl⟩

/-- `StringNode::StringNode(const Node &n)` from StringNode.cpp: if
`n.type() != TypeString` throw `E57_EXCEPTION2(ErrorBadNodeDowncast, ...)`;
otherwise set our shared pointer to the downcast of `n.impl()` (the same
underlying object). -/
def StringNode.downcast (n : Node) : Except ErrorCode StringNode :=
  if h : n.type = NodeType.TypeString then
    .ok ⟨n.impl, h⟩
  else
    .error ErrorCode.ErrorBadNodeDowncast

/-- An `ImageFile` handle as the wrapper layer observes it: whether the
file is open (`ImageFile::isOpen`) and whether it was opened in write mode
(`ImageFile::isWritable`). -/
structure ImageFile where
  isOpen : Bool
  isWritable : Bool
deriving DecidableEq

/-- The visible state of a `StringNodeImpl`: the destination image file it
was created against, the string value fixed at construction, its element
name, its parent back-reference and its attached flag. -/
structure SNodeState where
  dest : ImageFile
  value : String
  elementName : String
  parentLink : Option Nat
  attached : Bool
deriving DecidableEq

/-- Modelled from the spec: the `StringNodeImpl` constructor called by
`StringNode::StringNode(const ImageFile &, const ustring &)` is not in the
source snapshot.  Per the constructor documentation in StringNode.cpp, the
destination image file must be open (else `ErrorImageFileNotOpen` is
thrown) and writable (else `ErrorFileReadOnly`); on success the new node
holds the given value, is unattached and has no parent. -/
def StringNode.construct (destImageFile : ImageFile) (value : String) :
    Except ErrorCode SNodeState :=
  if !destImageFile.isOpen then
    .error ErrorCode.ErrorImageFileNotOpen
  else if !destImageFile.isWritable then
    .error ErrorCode.ErrorFileReadOnly
  else
    .ok { dest := destImageFile, value := value, elementName := "",
          parentLink := none, attached := false }

/-- `StringNode::checkInvariant(doRecurse, doUpcast)` from StringNode.cpp:
if the destination image file is not open, return without testing the
invariant; otherwise, if `doUpcast` is requested, perform the `Node` level
check `static_cast<Node>(*this).checkInvariant(false, false)`.  The `Node`
level check is not in the source snapshot and is passed in as `nodeCheck`. -/
def SNodeState.checkInvariant
    (nodeCheck : SNodeState → Bool → Bool → Except ErrorCode Unit)
    (_doRecurse doUpcast : Bool) (s : SNodeState) : Except ErrorCode Unit :=
  if !s.dest.isOpen then
    .ok ()
  else if doUpcast then
    nodeCheck s false false
  else
    .ok ()

/-- The operations StringNode.cpp exposes on a constructed node (the query
surface forwarded to `StringNodeImpl`). -/
inductive SNOp
  | opValue
  | opIsRoot
  | opParent
  | opElementName
  | opIsAttached
  | opCheckInvariant (doRecurse doUpcast : Bool)
deriving DecidableEq

/-- Replies produced by the operations of `SNOp`. -/
inductive SNReply
  | boolReply (b : Bool)
  | stringReply (v : String)
  | nodeReply (id : Option Nat)
  | unitReply
deriving DecidableEq

/-- Modelled from the spec: the `StringNodeImpl` query methods
(`value`, `isRoot`, `parent`, `elementName`, `isAttached`) are not in the
source snapshot.  Per the spec, leaf nodes are immutable after
construction, `value` requires the destination image file to be open
(`ErrorImageFileNotOpen` otherwise, per its documentation in
StringNode.cpp) and modifies no visible state, and the remaining queries
report the stored state unchanged. -/
def SNodeState.run
    (nodeCheck : SNodeState → Bool → Bool → Except ErrorCode Unit) :
    SNOp → SNodeState → Except ErrorCode (SNReply × SNodeState)
  | SNOp.opValue, s =>
    if !s.dest.isOpen then
      .error ErrorCode.ErrorImageFileNotOpen
    else
      .ok (SNReply.stringReply s.value, s)
  | SNOp.opIsRoot, s => .ok (SNReply.boolReply s.parentLink.isNone, s)
  | SNOp.opParent, s => .ok (SNReply.nodeReply s.parentLink, s)
  | SNOp.opElementName, s => .ok (SNReply.stringReply s.elementName, s)
  | SNOp.opIsAttached, s => .ok (SNReply.boolReply s.attached, s)
  | SNOp.opCheckInvariant r u, s =>
    (s.checkInvariant nodeCheck r u).map (fun _ => (SNReply.unitReply, s))

/-! ### Node tree (modelled from the spec) -/

/-- Modelled from the spec: a node of the in-memory typed tree (the node
tree implementation is not in the source snapshot).  Attributes per the
data model: element name, weak parent back-reference (`none` for a root),
owning container reference fixed for the node's whole life, and the
attached flag set once the node is linked beneath the container's root. -/
structure TreeNode where
  elementName : String
  parentLink : Option Nat
  containerId : Nat
  attached : Bool
deriving DecidableEq

/-- Modelled from the spec: `isRoot` holds exactly when the node has no
parent back-reference. -/
def TreeNode.isRoot (n : TreeNode) : Bool :=
  n.parentLink.isNone

/-- Modelled from the spec: `parent` returns the parent of the node, or
the node itself if it is a root node (`selfId` is the queried node's own
identifier). -/
def TreeNode.parentIdOf (selfId : Nat) (n : TreeNode) : Nat :=
  n.parentLink.getD selfId

/-- Modelled from the spec: a container holds its open mode and a node
table; node 0 is the container's root (always a Structure). -/
structure Container where
  containerId : Nat
  isWritable : Bool
  nodes : List TreeNode
deriving DecidableEq

/-- Modelled from the spec: `Container.create` produces a container whose
root node is attached, is its own parent (no parent back-reference), and
belongs to the container. -/
def Container.create (cid : Nat) (writable : Bool) : Container :=
  { containerId := cid, isWritable := writable,
    nodes := [{ elementName := "", parentLink := none, containerId := cid,
                attached := true }] }

/-- Whether the container's root node carries the attached flag. -/
def Container.rootAttached (c : Container) : Bool :=
  match c.nodes[0]? with
  | some r => r.attached
  | none => false

/-- Errors raised by the core operations, as named by the spec. -/
inductive CoreError
  | AlreadyAttached
  | ForeignContainer
  | DuplicateName
  | NotOpenForWrite
  | SessionConflict
deriving DecidableEq

/-- The spec's error categories (section 7). -/
inductive ErrorCategory
  | NotOpen
  | ReadOnly
  | UnsupportedFormat
  | CorruptData
  | StructuralViolation
  | SessionConflict
  | BadDowncast
  | InvariantViolation
  | Internal
deriving DecidableEq

/-- Modelled from the spec: the category each core error surfaces in.
`AlreadyAttached` (re-parenting attempt), `ForeignContainer` (foreign
attachment) and `DuplicateName` are structural violations; attaching into
a read-only container is a mutation attempted on a read-mode container. -/
def CoreError.category : CoreError → ErrorCategory
  | CoreError.AlreadyAttached => ErrorCategory.StructuralViolation
  | CoreError.ForeignContainer => ErrorCategory.StructuralViolation
  | CoreError.DuplicateName => ErrorCategory.StructuralViolation
  | CoreError.NotOpenForWrite => ErrorCategory.ReadOnly
  | CoreError.SessionConflict => ErrorCategory.SessionConflict

/-- Whether some node of the table is already a child of `parentId` with
element name `name` (the duplicate-sibling test of `attach`). -/
def Container.hasChildNamed (c : Container) (parentId : Nat) (name : String) : Bool :=
  c.nodes.any (fun nd => nd.parentLink == some parentId && nd.elementName == name)

/-- Modelled from the spec: `attach(parent, child)` of the node tree (not
in the source snapshot).  It fails with `AlreadyAttached` if the child is
already attached or already has a parent, with `ForeignContainer` if child
and parent belong to different containers, with `DuplicateName` if a
sibling under the parent already uses the child's element name, and with
`NotOpenForWrite` if the container is read-only; otherwise the child gains
the parent back-reference and inherits the parent's attached flag. -/
def Container.attach (c : Container) (parentId childId : Nat) :
    Except CoreError Container :=
  match c.nodes[parentId]?, c.nodes[childId]? with
  | some p, some ch =>
    if ch.attached || ch.parentLink.isSome then
      .error CoreError.AlreadyAttached
    else if ch.containerId != p.containerId then
      .error CoreError.ForeignContainer
    else if c.hasChildNamed parentId ch.elementName then
      .error CoreError.DuplicateName
    else if !c.isWritable then
      .error CoreError.NotOpenForWrite
    else
      let ch2 := { ch with parentLink := some parentId, attached := p.attached }
      .ok { c with nodes := c.nodes.set childId ch2 }
  | _, _ => .error CoreError.ForeignContainer

/-! ### Checksummed paged store (modelled from the spec) -/

/-- Modelled from the spec: the logical-to-physical offset translation of
the checksummed paged store (not in the source snapshot): a physical
offset accounts for one integrity code of `checksumSize` bytes inserted
after each `pageDataSize` bytes of payload, so
`physical(L) = L + floor(L / pageDataSize) * checksumSize`. -/
def physicalOffset (pageDataSize checksumSize logical : Nat) : Nat :=
  logical + logical / pageDataSize * checksumSize

/-! ### Codec sessions (modelled from the spec) -/

/-- A codec session is either a read session or a write session. -/
inductive SessionKind
  | readSession
  | writeSession
deriving DecidableEq

/-- Modelled from the spec: the per-PackedVector-node session bookkeeping
of the container — the session-exclusivity flag on the node, holding the
kind of the active session if one is open. -/
structure PackedVectorState where
  activeSession : Option SessionKind
deriving DecidableEq

/-- Modelled from the spec: opening a codec session (read or write) on a
PackedVector node fails with `SessionConflict` while a session is active,
and otherwise records the new session in the exclusivity flag. -/
def openCodecSession (k : SessionKind) (n : PackedVectorState) :
    Except CoreError PackedVectorState :=
  match n.activeSession with
  | some _ => .error CoreError.SessionConflict
  | none => .ok { activeSession := some k }

/-- Modelled from the spec: closing a codec session releases the node's
exclusivity flag unconditionally — the same release runs on every exit
path (normal close, error, early abandonment). -/
def closeCodecSession (_n : PackedVectorState) : PackedVectorState :=
  { activeSession := none }

/-! ### Bit-packed record codec (modelled from the spec) -/

/-- Modelled from the spec: a field descriptor of the bit-packed record
codec (not in the source snapshot), covering every numeric kind of the
data model: a bounded integer kind with declared minimum/maximum (plain
signed/unsigned or scaled integer), floating point in IEEE-754 single or
double width, a string or an opaque blob — each either variable-length
with an explicit length prefix of `lenBits` bits fixed at
prototype-creation time, or fixed-length at `byteLen` bytes. -/
inductive FieldDesc
  | integerField (minimum maximum : Int)
  | scaledIntegerField (minimum maximum : Int)
  | floatField
  | doubleField
  | stringField (lenBits : Nat)
  | fixedStringField (byteLen : Nat)
  | blobField (lenBits : Nat)
  | fixedBlobField (byteLen : Nat)
deriving DecidableEq

/-- A record field value: an integer raw value, a float given as the
32- or 64-bit IEEE-754 image the codec stores verbatim, a string given as
its UTF-8 byte sequence, or a blob given as its byte sequence. -/
inductive FieldValue
  | intValue (v : Int)
  | floatValue (bits : Nat)
  | stringValue (bytes : List Nat)
  | blobValue (bytes : List Nat)
deriving DecidableEq

/-- Helper for `bitsNeeded`: structural recursion on a fuel argument that
bounds the input. -/
def bitsNeededAux : Nat → Nat → Nat
  | 0, _ => 0
  | fuel + 1, n => if n = 0 then 0 else bitsNeededAux fuel (n / 2) + 1

/-- Minimum number of bits needed to represent every natural number up to
`n` (0 for `n = 0`): one plus the floor base-2 logarithm for positive `n`. -/
def bitsNeeded (n : Nat) : Nat :=
  bitsNeededAux n n

/-- Modelled from the spec: the derived bit width of a field — for
bounded-integer kinds, the minimum bits needed to represent
`maximum - minimum`; the fixed IEEE-754 width for floats; the content
width for fixed-length strings and blobs; and for variable-length string
and blob fields, the width of their length prefix (their content bits
then vary per value). -/
def FieldDesc.bitWidth : FieldDesc → Nat
  | FieldDesc.integerField minimum maximum => bitsNeeded (maximum - minimum).toNat
  | FieldDesc.scaledIntegerField minimum maximum => bitsNeeded (maximum - minimum).toNat
  | FieldDesc.floatField => 32
  | FieldDesc.doubleField => 64
  | FieldDesc.stringField lenBits => lenBits
  | FieldDesc.fixedStringField byteLen => byteLen * 8
  | FieldDesc.blobField lenBits => lenBits
  | FieldDesc.fixedBlobField byteLen => byteLen * 8

/-- Write a natural number as exactly `w` bits, least significant first. -/
def natToBits : Nat → Nat → List Bool
  | 0, _ => []
  | w + 1, n => (n % 2 == 1) :: natToBits w (n / 2)

/-- Read exactly `w` bits (least significant first) from the head of a bit
stream, failing if the stream is too short. -/
def readBits : Nat → List Bool → Option (Nat × List Bool)
  | 0, bs => some (0, bs)
  | _ + 1, [] => none
  | w + 1, b :: bs =>
    match readBits w bs with
    | some (m, rest) => some ((if b then 1 else 0) + 2 * m, rest)
    | none => none

/-- Read `count` 8-bit bytes from the head of a bit stream. -/
def readBytes : Nat → List Bool → Option (List Nat × List Bool)
  | 0, bs => some ([], bs)
  | count + 1, bs =>
    match readBits 8 bs with
    | some (b, rest) =>
      match readBytes count rest with
      | some (tl, rest2) => some (b :: tl, rest2)
      | none => none
    | none => none

/-- Modelled from the spec: pack one field value into bits.  Bounded
integers (plain and scaled) are written as the unsigned representation of
`stored = rawValue - minimum` in the descriptor's bit width; floats are
written as their fixed IEEE-754 single/double bit image; a
variable-length string or blob is written as its byte length in the
`lenBits`-bit prefix followed by its bytes, 8 bits each; a fixed-length
string or blob is written as its bytes alone, occupying the declared
width.  A kind-mismatched value packs to nothing (excluded by the
in-range side condition). -/
def encodeValue : FieldDesc → FieldValue → List Bool
  | FieldDesc.integerField minimum maximum, FieldValue.intValue v =>
    natToBits (FieldDesc.bitWidth (FieldDesc.integerField minimum maximum)) (v - minimum).toNat
  | FieldDesc.scaledIntegerField minimum maximum, FieldValue.intValue v =>
    natToBits (FieldDesc.bitWidth (FieldDesc.scaledIntegerField minimum maximum)) (v - minimum).toNat
  | FieldDesc.floatField, FieldValue.floatValue bits => natToBits 32 bits
  | FieldDesc.doubleField, FieldValue.floatValue bits => natToBits 64 bits
  | FieldDesc.stringField lenBits, FieldValue.stringValue bytes =>
    natToBits lenBits bytes.length ++ bytes.flatMap (natToBits 8)
  | FieldDesc.fixedStringField _, FieldValue.stringValue bytes =>
    bytes.flatMap (natToBits 8)
  | FieldDesc.blobField lenBits, FieldValue.blobValue bytes =>
    natToBits lenBits bytes.length ++ bytes.flatMap (natToBits 8)
  | FieldDesc.fixedBlobField _, FieldValue.blobValue bytes =>
    bytes.flatMap (natToBits 8)
  | _, _ => []

/-- Modelled from the spec: unpack one field value from the head of a bit
stream, the inverse of the write mapping — for bounded integers the raw
value is recovered as `rawValue = stored + minimum`; floats are read back
as their fixed-width bit image; for variable-length strings and blobs the
length prefix is read first, then that many bytes; for fixed-length ones
exactly the declared byte count is read. -/
def decodeValue : FieldDesc → List Bool → Option (FieldValue × List Bool)
  | FieldDesc.integerField minimum maximum, bs =>
    match readBits (FieldDesc.bitWidth (FieldDesc.integerField minimum maximum)) bs with
    | some (stored, rest) => some (FieldValue.intValue ((stored : Int) + minimum), rest)
    | none => none
  | FieldDesc.scaledIntegerField minimum maximum, bs =>
    match readBits (FieldDesc.bitWidth (FieldDesc.scaledIntegerField minimum maximum)) bs with
    | some (stored, rest) => some (FieldValue.intValue ((stored : Int) + minimum), rest)
    | none => none
  | FieldDesc.floatField, bs =>
    match readBits 32 bs with
    | some (bits, rest) => some (FieldValue.floatValue bits, rest)
    | none => none
  | FieldDesc.doubleField, bs =>
    match readBits 64 bs with
    | some (bits, rest) => some (FieldValue.floatValue bits, rest)
    | none => none
  | FieldDesc.stringField lenBits, bs =>
    match readBits lenBits bs with
    | some (len, rest) =>
      match readBytes len rest with
      | some (bytes, rest2) => some (FieldValue.stringValue bytes, rest2)
      | none => none
    | none => none
  | FieldDesc.fixedStringField byteLen, bs =>
    match readBytes byteLen bs with
    | some (bytes, rest) => some (FieldValue.stringValue bytes, rest)
    | none => none
  | FieldDesc.blobField lenBits, bs =>
    match readBits lenBits bs with
    | some (len, rest) =>
      match readBytes len rest with
      | some (bytes, rest2) => some (FieldValue.blobValue bytes, rest2)
      | none => none
    | none => none
  | FieldDesc.fixedBlobField byteLen, bs =>
    match readBytes byteLen bs with
    | some (bytes, rest) => some (FieldValue.blobValue bytes, rest)
    | none => none

/-- Whether a value is in range for a descriptor: a bounded integer lies
between the declared minimum and maximum; a float image fits its fixed
IEEE-754 width; the bytes of a string or blob are 8-bit, with the length
fitting the length prefix for variable-length fields and equal to the
declared byte count for fixed-length fields. -/
def inRange : FieldDesc → FieldValue → Bool
  | FieldDesc.integerField minimum maximum, FieldValue.intValue v =>
    decide (minimum ≤ v) && decide (v ≤ maximum)
  | FieldDesc.scaledIntegerField minimum maximum, FieldValue.intValue v =>
    decide (minimum ≤ v) && decide (v ≤ maximum)
  | FieldDesc.floatField, FieldValue.floatValue bits => decide (bits < 2 ^ 32)
  | FieldDesc.doubleField, FieldValue.floatValue bits => decide (bits < 2 ^ 64)
  | FieldDesc.stringField lenBits, FieldValue.stringValue bytes =>
    decide (bytes.length < 2 ^ lenBits) && bytes.all (fun b => b < 2 ^ 8)
  | FieldDesc.fixedStringField byteLen, FieldValue.stringValue bytes =>
    decide (bytes.length = byteLen) && bytes.all (fun b => b < 2 ^ 8)
  | FieldDesc.blobField lenBits, FieldValue.blobValue bytes =>
    decide (bytes.length < 2 ^ lenBits) && bytes.all (fun b => b < 2 ^ 8)
  | FieldDesc.fixedBlobField byteLen, FieldValue.blobValue bytes =>
    decide (bytes.length = byteLen) && bytes.all (fun b => b < 2 ^ 8)
  | _, _ => false

/-- Whether a record matches the descriptor list field by field, every
value in range for its descriptor. -/
def recordInRange : List FieldDesc → List FieldValue → Bool
  | [], [] => true
  | d :: ds, v :: vs => inRange d v && recordInRange ds vs
  | _, _ => false

/-- Modelled from the spec: fields of a record are packed with no padding
between fields — each field's bits begin immediately after the previous
field's. -/
def encodeRecord : List FieldDesc → List FieldValue → List Bool
  | d :: ds, v :: vs => encodeValue d v ++ encodeRecord ds vs
  | _, _ => []

/-- Decode one record's worth of bits from the head of a bit stream. -/
def decodeRecord : List FieldDesc → List Bool → Option (List FieldValue × List Bool)
  | [], bs => some ([], bs)
  | d :: ds, bs =>
    match decodeValue d bs with
    | some (v, rest) =>
      match decodeRecord ds rest with
      | some (vs, rest2) => some (v :: vs, rest2)
      | none => none
    | none => none

/-- Modelled from the spec: records are laid out contiguously in the
payload bit stream. -/
def encodeRecords (descs : List FieldDesc) (records : List (List FieldValue)) : List Bool :=
  records.flatMap (encodeRecord descs)

/-- Modelled from the spec: the reader decodes exactly one record's worth
of bits per step, `count` records in all (the declared record count). -/
def decodeRecords (descs : List FieldDesc) : Nat → List Bool →
    Option (List (List FieldValue))
  | 0, _ => some []
  | count + 1, bs =>
    match decodeRecord descs bs with
    | some (r, rest) =>
      match decodeRecords descs count rest with
      | some rs => some (r :: rs)
      | none => none
    | none => none

/-- Sample descriptor list for concrete evaluation, one field per
descriptor kind: an 8-bit unsigned integer, a scaled integer with minimum
-100 and maximum 100, an IEEE-754 single and a double, a variable-length
string with an 8-bit length prefix, a 2-byte fixed-length string, a
variable-length blob with a 4-bit length prefix, and a 1-byte
fixed-length blob. -/
def exampleDescs : List FieldDesc :=
  [FieldDesc.integerField 0 255, FieldDesc.scaledIntegerField (-100) 100,
   FieldDesc.floatField, FieldDesc.doubleField,
   FieldDesc.stringField 8, FieldDesc.fixedStringField 2,
   FieldDesc.blobField 4, FieldDesc.fixedBlobField 1]

/-- Sample record array hitting the boundary values of `exampleDescs`:
minimum and maximum of each integer field, the zero and all-ones float
images, a zero-length string and a zero-length blob. -/
def exampleRecords : List (List FieldValue) :=
  [[FieldValue.intValue 0, FieldValue.intValue (-100),
    FieldValue.floatValue 0, FieldValue.floatValue 0,
    FieldValue.stringValue [], FieldValue.stringValue [65, 66],
    FieldValue.blobValue [], FieldValue.blobValue [7]],
   [FieldValue.intValue 255, FieldValue.intValue 100,
    FieldValue.floatValue 4294967295,
    FieldValue.floatValue 4607182418800017408,
    FieldValue.stringValue [104, 105], FieldValue.stringValue [0, 255],
    FieldValue.blobValue [1, 2, 3], FieldValue.blobValue [255]]]

/-! ## Theorems -/

/-- C1: Downcasting a generic `Node` handle to a `StringNode` handle
throws `ErrorBadNodeDowncast` exactly when the underlying node's type is
not `TypeString`; when the type is `TypeString` the downcast succeeds and
the resulting handle refers to the same underlying object. -/
theorem downcast_error_iff_not_string (n : Node) :
    (n.type ≠ NodeType.TypeString →
      StringNode.downcast n = .error ErrorCode.ErrorBadNodeDowncast) ∧
    (n.type = NodeType.TypeString →
      ∃ s : StringNode, StringNode.downcast n = .ok s ∧ s.impl = n.impl) := by
  constructor
  · intro h
    simp [StringNode.downcast, h]
  · intro h
    exact ⟨⟨n.impl, h⟩, by simp [StringNode.downcast, h], rfl⟩

/-- Witness for C1 at concrete nodes: an Integer-typed node fails the
downcast with `ErrorBadNodeDowncast`, and a String-typed node downcasts to
a handle on the same underlying object. -/
theorem downcast_error_iff_not_string_witness :
    StringNode.downcast ⟨⟨0, NodeType.TypeInteger⟩⟩ =
      .error ErrorCode.ErrorBadNodeDowncast ∧
    ∃ s : StringNode, StringNode.downcast ⟨⟨1, NodeType.TypeString⟩⟩ = .ok s ∧
      s.impl = ⟨1, NodeType.TypeString⟩ :=
  ⟨(downcast_error_iff_not_string ⟨⟨0, NodeType.TypeInteger⟩⟩).1 (by decide),
   (downcast_error_iff_not_string ⟨⟨1, NodeType.TypeString⟩⟩).2 rfl⟩

/-- C10: the upcast `StringNode::operator Node()` never throws (it is a
total function into `Node`), and downcasting the upcast back through
`StringNode(const Node &)` succeeds with the identical handle, so upcast
followed by downcast is the identity on `StringNode` handles. -/
theorem upcast_downcast_identity (s : StringNode) :
    StringNode.downcast (StringNode.toNode s) = .ok s := by
  have h : (StringNode.toNode s).type = NodeType.TypeString := s.impl_string
  cases s with
  | mk impl hs => simp [StringNode.downcast, StringNode.toNode, Node.type, hs]

/-- Witness for C10 at a concrete StringNode handle. -/
theorem upcast_downcast_identity_witness :
    StringNode.downcast (StringNode.toNode ⟨⟨2, NodeType.TypeString⟩, rfl⟩) =
      .ok ⟨⟨2, NodeType.TypeString⟩, rfl⟩ :=
  upcast_downcast_identity ⟨⟨2, NodeType.TypeString⟩, rfl⟩

/-- C9: for every StringNode whose destination image file is not open,
`checkInvariant(doRecurse, doUpcast)` returns normally without performing
any check, for all values of its two arguments and for every possible
`Node`-level check. -/
theorem checkInvariant_closed_ok
    (nodeCheck : SNodeState → Bool → Bool → Except ErrorCode Unit)
    (doRecurse doUpcast : Bool) (s : SNodeState)
    (h : s.dest.isOpen = false) :
    SNodeState.checkInvariant nodeCheck doRecurse doUpcast s = .ok () := by
  simp [SNodeState.checkInvariant, h]

/-- Witness for C9: a concrete node of a closed image file passes
`checkInvariant` even when the `Node`-level check would report a
violation. -/
theorem checkInvariant_closed_ok_witness :
    SNodeState.checkInvariant
      (fun _ _ _ => .error ErrorCode.ErrorInvariantViolation) true true
      { dest := ⟨false, false⟩, value := "abc", elementName := "e",
        parentLink := none, attached := false } = .ok () :=
  checkInvariant_closed_ok _ true true _ rfl

/-- C7: constructing a StringNode against a closed destination image file
fails with `ErrorImageFileNotOpen`; against an open but read-only file it
fails with `ErrorFileReadOnly`; construction succeeds exactly when the
destination is open and writable. -/
theorem construct_requires_open_writable (f : ImageFile) (v : String) :
    (f.isOpen = false →
      StringNode.construct f v = .error ErrorCode.ErrorImageFileNotOpen) ∧
    (f.isOpen = true → f.isWritable = false →
      StringNode.construct f v = .error ErrorCode.ErrorFileReadOnly) ∧
    (f.isOpen = true → f.isWritable = true →
      StringNode.construct f v =
        .ok { dest := f, value := v, elementName := "", parentLink := none,
              attached := false }) := by
  refine ⟨?_, ?_, ?_⟩
  · intro h
    simp [StringNode.construct, h]
  · intro h1 h2
    simp [StringNode.construct, h1, h2]
  · intro h1 h2
    simp [StringNode.construct, h1, h2]

/-- Witness for C7 at the three concrete file states. -/
theorem construct_requires_open_writable_witness :
    StringNode.construct ⟨false, true⟩ "a" =
      .error ErrorCode.ErrorImageFileNotOpen ∧
    StringNode.construct ⟨true, false⟩ "a" =
      .error ErrorCode.ErrorFileReadOnly ∧
    StringNode.construct ⟨true, true⟩ "a" =
      .ok { dest := ⟨true, true⟩, value := "a", elementName := "",
            parentLink := none, attached := false } :=
  ⟨(construct_requires_open_writable ⟨false, true⟩ "a").1 rfl,
   (construct_requires_open_writable ⟨true, false⟩ "a").2.1 rfl rfl,
   (construct_requires_open_writable ⟨true, true⟩ "a").2.2 rfl rfl⟩

/-- C6: at most one codec session is open per PackedVector node — opening
a second session while one is active fails with `SessionConflict`; closing
releases the exclusivity flag unconditionally; and after a close a new
session opens successfully. -/
theorem session_exclusivity (n : PackedVectorState) (k k2 : SessionKind) :
    (n.activeSession = some k2 →
      openCodecSession k n = .error CoreError.SessionConflict) ∧
    (closeCodecSession n).activeSession = none ∧
    openCodecSession k (closeCodecSession n) = .ok { activeSession := some k } := by
  refine ⟨?_, rfl, rfl⟩
  intro h
  simp [openCodecSession, h]

/-- Witness for C6: with a read session active, opening a write session
fails with `SessionConflict`; closing then reopening succeeds. -/
theorem session_exclusivity_witness :
    openCodecSession SessionKind.writeSession ⟨some SessionKind.readSession⟩ =
      .error CoreError.SessionConflict ∧
    (closeCodecSession ⟨some SessionKind.readSession⟩).activeSession = none ∧
    openCodecSession SessionKind.writeSession
      (closeCodecSession ⟨some SessionKind.readSession⟩) =
      .ok { activeSession := some SessionKind.writeSession } :=
  ⟨(session_exclusivity ⟨some SessionKind.readSession⟩ SessionKind.writeSession
      SessionKind.readSession).1 rfl,
   (session_exclusivity ⟨some SessionKind.readSession⟩ SessionKind.writeSession
      SessionKind.readSession).2.1,
   (session_exclusivity ⟨some SessionKind.readSession⟩ SessionKind.writeSession
      SessionKind.readSession).2.2⟩

/-- C4: the logical-to-physical translation satisfies
`physical(L) = L + floor(L / pageDataSize) * checksumSize`, is strictly
increasing, never lands on a checksum byte (its residue in a full physical
page of `pageDataSize + checksumSize` bytes stays within the payload), and
`physical(pageDataSize) - physical(0) = pageDataSize + checksumSize`. -/
theorem physicalOffset_spec (d c L1 L2 L : Nat) (hd : 0 < d) :
    physicalOffset d c L = L + L / d * c ∧
    (L1 < L2 → physicalOffset d c L1 < physicalOffset d c L2) ∧
    physicalOffset d c L % (d + c) < d ∧
    physicalOffset d c d - physicalOffset d c 0 = d + c := by
  refine ⟨rfl, ?_, ?_, ?_⟩
  · intro h
    exact Nat.add_lt_add_of_lt_of_le h
      (Nat.mul_le_mul_right c (Nat.div_le_div_right h.le))
  · have h1 : physicalOffset d c L = L % d + L / d * (d + c) := by
      unfold physicalOffset
      nlinarith [Nat.div_add_mod L d]
    rw [h1, Nat.add_mul_mod_self_right]
    have h3 : L % d < d := Nat.mod_lt _ hd
    rw [Nat.mod_eq_of_lt (by omega)]
    exact h3
  · simp [physicalOffset, Nat.div_self hd]

/-- C8: a StringNode is immutable after construction — the value fixed at
construction is what `value()` returns when the destination image file is
open, `value()` modifies no visible state, and no operation of the node's
surface changes its state or its stored value. -/
theorem stringNode_immutable
    (nodeCheck : SNodeState → Bool → Bool → Except ErrorCode Unit)
    (f : ImageFile) (v : String) (s : SNodeState) :
    (StringNode.construct f v = .ok s → s.value = v) ∧
    (s.dest.isOpen = true →
      SNodeState.run nodeCheck SNOp.opValue s =
        .ok (SNReply.stringReply s.value, s)) ∧
    (∀ op r s2, SNodeState.run nodeCheck op s = .ok (r, s2) →
      s2 = s ∧ s2.value = s.value) := by
  refine ⟨?_, ?_, ?_⟩
  · intro h
    unfold StringNode.construct at h
    split at h
    · exact absurd h (by simp)
    · split at h
      · exact absurd h (by simp)
      · simp only [Except.ok.injEq] at h
        rw [← h]
  · intro h
    simp [SNodeState.run, h]
  · intro op r s2 h
    cases op with
    | opValue =>
      simp only [SNodeState.run] at h
      split at h
      · exact absurd h (by simp)
      · simp only [Except.ok.injEq, Prod.mk.injEq] at h
        rw [← h.2]
        exact ⟨rfl, rfl⟩
    | opIsRoot =>
      simp only [SNodeState.run, Except.ok.injEq, Prod.mk.injEq] at h
      rw [← h.2]
      exact ⟨rfl, rfl⟩
    | opParent =>
      simp only [SNodeState.run, Except.ok.injEq, Prod.mk.injEq] at h
      rw [← h.2]
      exact ⟨rfl, rfl⟩
    | opElementName =>
      simp only [SNodeState.run, Except.ok.injEq, Prod.mk.injEq] at h
      rw [← h.2]
      exact ⟨rfl, rfl⟩
    | opIsAttached =>
      simp only [SNodeState.run, Except.ok.injEq, Prod.mk.injEq] at h
      rw [← h.2]
      exact ⟨rfl, rfl⟩
    | opCheckInvariant dr du =>
      simp only [SNodeState.run] at h
      cases hci : s.checkInvariant nodeCheck dr du with
      | ok u =>
        rw [hci] at h
        simp only [Except.map, Except.ok.injEq, Prod.mk.injEq] at h
        rw [← h.2]
        exact ⟨rfl, rfl⟩
      | error e =>
        rw [hci] at h
        exact absurd h (by simp [Except.map])

/-- Witness for C8: a node constructed on an open writable file stores the
given value, reports it through `opValue` without state change, and the
queries leave the state intact. -/
theorem stringNode_immutable_witness :
    ({ dest := ⟨true, true⟩, value := "hello", elementName := "",
       parentLink := none, attached := false } : SNodeState).value = "hello" ∧
    SNodeState.run (fun _ _ _ => .ok ()) SNOp.opValue
      { dest := ⟨true, true⟩, value := "hello", elementName := "",
        parentLink := none, attached := false } =
      .ok (SNReply.stringReply "hello",
        { dest := ⟨true, true⟩, value := "hello", elementName := "",
          parentLink := none, attached := false }) ∧
    ({ dest := ⟨true, true⟩, value := "hello", elementName := "",
       parentLink := none, attached := false } : SNodeState) =
      { dest := ⟨true, true⟩, value := "hello", elementName := "",
        parentLink := none, attached := false } :=
  ⟨(stringNode_immutable (fun _ _ _ => .ok ()) ⟨true, true⟩ "hello"
      { dest := ⟨true, true⟩, value := "hello", elementName := "",
        parentLink := none, attached := false }).1 rfl,
   (stringNode_immutable (fun _ _ _ => .ok ()) ⟨true, true⟩ "hello"
      { dest := ⟨true, true⟩, value := "hello", elementName := "",
        parentLink := none, attached := false }).2.1 rfl,
   ((stringNode_immutable (fun _ _ _ => .ok ()) ⟨true, true⟩ "hello"
      { dest := ⟨true, true⟩, value := "hello", elementName := "",
        parentLink := none, attached := false }).2.2 SNOp.opIsRoot
      (SNReply.boolReply true) _ rfl).1⟩

/-- Helper: a successful `attach` presupposes an unattached, parent-less
child and rewrites exactly the child's slot of the node table. -/
theorem attach_ok_inv (c c2 : Container) (pid chid : Nat)
    (hatt : Container.attach c pid chid = .ok c2) :
    ∃ p ch, c.nodes[pid]? = some p ∧ c.nodes[chid]? = some ch ∧
      ch.attached = false ∧
      c2.nodes = c.nodes.set chid
        { ch with parentLink := some pid, attached := p.attached } := by
  unfold Container.attach at hatt
  split at hatt
  case h_2 => exact absurd hatt (by simp)
  case h_1 p ch hp hch =>
    by_cases ha : (ch.attached || ch.parentLink.isSome) = true
    · rw [if_pos ha] at hatt
      exact absurd hatt (by simp)
    · rw [if_neg ha] at hatt
      by_cases hb : (ch.containerId != p.containerId) = true
      · rw [if_pos hb] at hatt
        exact absurd hatt (by simp)
      · rw [if_neg hb] at hatt
        by_cases hc : c.hasChildNamed pid ch.elementName = true
        · rw [if_pos hc] at hatt
          exact absurd hatt (by simp)
        · rw [if_neg hc] at hatt
          by_cases hw : (!c.isWritable) = true
          · rw [if_pos hw] at hatt
            exact absurd hatt (by simp)
          · rw [if_neg hw] at hatt
            simp only [Except.ok.injEq] at hatt
            refine ⟨p, ch, hp, hch, ?_, ?_⟩
            · simp only [Bool.or_eq_true, not_or] at ha
              simpa using ha.1
            · rw [← hatt]

/-- C2: a root node is its own parent while a non-root node's parent is
the one its back-reference names, and the root of a container is attached
on creation and stays attached across every successful `attach`. -/
theorem root_parent_contract (selfId : Nat) (n : TreeNode) (cid : Nat)
    (w : Bool) :
    (n.isRoot = true → TreeNode.parentIdOf selfId n = selfId) ∧
    (n.isRoot = false →
      some (TreeNode.parentIdOf selfId n) = n.parentLink) ∧
    Container.rootAttached (Container.create cid w) = true ∧
    (∀ (c c2 : Container) (pid chid : Nat),
      Container.rootAttached c = true → Container.attach c pid chid = .ok c2 →
      Container.rootAttached c2 = true) := by
  refine ⟨?_, ?_, rfl, ?_⟩
  · intro h
    cases hpl : n.parentLink with
    | none => simp [TreeNode.parentIdOf, hpl]
    | some p =>
      rw [TreeNode.isRoot, hpl] at h
      exact absurd h (by simp)
  · intro h
    cases hpl : n.parentLink with
    | none =>
      rw [TreeNode.isRoot, hpl] at h
      exact absurd h (by simp)
    | some p => simp [TreeNode.parentIdOf, hpl]
  · intro c c2 pid chid hroot hatt
    obtain ⟨p, ch, hp, hch, hchAtt, hnodes⟩ := attach_ok_inv c c2 pid chid hatt
    unfold Container.rootAttached at hroot ⊢
    rw [hnodes]
    by_cases h0 : chid = 0
    · subst h0
      simp only [hch] at hroot
      rw [hchAtt] at hroot
      exact absurd hroot (by simp)
    · rw [List.getElem?_set_ne h0]
      exact hroot

/-- Witness for C2: concrete root and non-root nodes follow the
`isRoot`/`parent` contract, and a concrete successful attach keeps the
root of the container attached. -/
theorem root_parent_contract_witness :
    TreeNode.parentIdOf 5 ⟨"x", none, 3, true⟩ = 5 ∧
    some (TreeNode.parentIdOf 9 ⟨"y", some 2, 3, true⟩) =
      (⟨"y", some 2, 3, true⟩ : TreeNode).parentLink ∧
    Container.rootAttached (Container.create 3 true) = true ∧
    Container.rootAttached
      ⟨3, true, [⟨"", none, 3, true⟩, ⟨"y", some 0, 3, true⟩]⟩ = true :=
  ⟨(root_parent_contract 5 ⟨"x", none, 3, true⟩ 3 true).1 rfl,
   (root_parent_contract 9 ⟨"y", some 2, 3, true⟩ 3 true).2.1 rfl,
   (root_parent_contract 5 ⟨"x", none, 3, true⟩ 3 true).2.2.1,
   (root_parent_contract 5 ⟨"x", none, 3, true⟩ 3 true).2.2.2
     ⟨3, true, [⟨"", none, 3, true⟩, ⟨"y", none, 3, false⟩]⟩
     ⟨3, true, [⟨"", none, 3, true⟩, ⟨"y", some 0, 3, true⟩]⟩
     0 1 rfl rfl⟩

/-- Reading back `w` bits written for a value below `2 ^ w` recovers the
value and leaves the rest of the stream untouched. -/
theorem readBits_natToBits (w n : Nat) (tail : List Bool) (h : n < 2 ^ w) :
    readBits w (natToBits w n ++ tail) = some (n, tail) := by
  induction w generalizing n tail with
  | zero =>
    have hn : n = 0 := by simpa using h
    subst hn
    simp [natToBits, readBits]
  | succ w ih =>
    have h2 : n / 2 < 2 ^ w := by
      have hp : 2 ^ (w + 1) = 2 * 2 ^ w := by ring
      omega
    simp only [natToBits, List.cons_append, readBits, List.append_eq]
    rw [ih (n / 2) tail h2]
    rcases Nat.mod_two_eq_zero_or_one n with h3 | h3 <;> simp [h3] <;> omega

/-- Reading back the bytes written as consecutive 8-bit groups recovers
the byte list. -/
theorem readBytes_flatMap (bytes : List Nat) (tail : List Bool)
    (h : ∀ b ∈ bytes, b < 2 ^ 8) :
    readBytes bytes.length (bytes.flatMap (natToBits 8) ++ tail) =
      some (bytes, tail) := by
  induction bytes generalizing tail with
  | nil => simp [readBytes]
  | cons b bs ih =>
    simp only [List.flatMap_cons, List.length_cons, List.append_assoc, readBytes,
      readBits_natToBits 8 b (bs.flatMap (natToBits 8) ++ tail) (h b (by simp)),
      ih tail (fun x hx => h x (by simp [hx]))]

/-- The fuel-based bit count dominates its input once the fuel does. -/
theorem lt_two_pow_bitsNeededAux (fuel n : Nat) (h : n ≤ fuel) :
    n < 2 ^ bitsNeededAux fuel n := by
  induction fuel generalizing n with
  | zero =>
    have hn : n = 0 := by omega
    subst hn
    simp [bitsNeededAux]
  | succ fuel ih =>
    by_cases h0 : n = 0
    · subst h0
      simp [bitsNeededAux]
    · have hdiv : n / 2 ≤ fuel := by omega
      have h2 := ih (n / 2) hdiv
      simp only [bitsNeededAux, h0, if_false]
      have hp : 2 ^ (bitsNeededAux fuel (n / 2) + 1) =
          2 * 2 ^ bitsNeededAux fuel (n / 2) := by ring
      omega

/-- The stored offset of an in-range bounded integer fits the derived bit
width. -/
theorem stored_lt_two_pow (mn mx v : Int) (_h1 : mn ≤ v) (h2 : v ≤ mx) :
    (v - mn).toNat < 2 ^ bitsNeeded (mx - mn).toNat := by
  have hle : (v - mn).toNat ≤ (mx - mn).toNat := Int.toNat_le_toNat (by omega)
  unfold bitsNeeded
  exact Nat.lt_of_le_of_lt hle
    (lt_two_pow_bitsNeededAux ((mx - mn).toNat) ((mx - mn).toNat) le_rfl)

/-- Unpacking the packing of one in-range field value recovers the value
and leaves the rest of the stream untouched. -/
theorem decodeValue_encodeValue (d : FieldDesc) (v : FieldValue)
    (tail : List Bool) (h : inRange d v = true) :
    decodeValue d (encodeValue d v ++ tail) = some (v, tail) := by
  cases d with
  | integerField mn mx =>
    cases v with
    | intValue i =>
      simp only [inRange, Bool.and_eq_true, decide_eq_true_eq] at h
      have hlt : (i - mn).toNat < 2 ^ bitsNeeded (mx - mn).toNat :=
        stored_lt_two_pow mn mx i h.1 h.2
      simp only [encodeValue, decodeValue, FieldDesc.bitWidth,
        readBits_natToBits _ _ tail hlt]
      have hnn : ((i - mn).toNat : Int) = i - mn := Int.toNat_of_nonneg (by omega)
      rw [hnn]
      norm_num
    | floatValue bits => simp [inRange] at h
    | stringValue bs => simp [inRange] at h
    | blobValue bs => simp [inRange] at h
  | scaledIntegerField mn mx =>
    cases v with
    | intValue i =>
      simp only [inRange, Bool.and_eq_true, decide_eq_true_eq] at h
      have hlt : (i - mn).toNat < 2 ^ bitsNeeded (mx - mn).toNat :=
        stored_lt_two_pow mn mx i h.1 h.2
      simp only [encodeValue, decodeValue, FieldDesc.bitWidth,
        readBits_natToBits _ _ tail hlt]
      have hnn : ((i - mn).toNat : Int) = i - mn := Int.toNat_of_nonneg (by omega)
      rw [hnn]
      norm_num
    | floatValue bits => simp [inRange] at h
    | stringValue bs => simp [inRange] at h
    | blobValue bs => simp [inRange] at h
  | floatField =>
    cases v with
    | intValue i => simp [inRange] at h
    | floatValue bits =>
      simp only [inRange, decide_eq_true_eq] at h
      simp only [encodeValue, decodeValue,
        readBits_natToBits 32 bits tail h]
    | stringValue bs => simp [inRange] at h
    | blobValue bs => simp [inRange] at h
  | doubleField =>
    cases v with
    | intValue i => simp [inRange] at h
    | floatValue bits =>
      simp only [inRange, decide_eq_true_eq] at h
      simp only [encodeValue, decodeValue,
        readBits_natToBits 64 bits tail h]
    | stringValue bs => simp [inRange] at h
    | blobValue bs => simp [inRange] at h
  | stringField lb =>
    cases v with
    | intValue i => simp [inRange] at h
    | floatValue bits => simp [inRange] at h
    | stringValue bs =>
      simp only [inRange, Bool.and_eq_true, decide_eq_true_eq,
        List.all_eq_true] at h
      simp only [encodeValue, decodeValue, FieldDesc.bitWidth,
        List.append_assoc,
        readBits_natToBits lb bs.length (bs.flatMap (natToBits 8) ++ tail) h.1,
        readBytes_flatMap bs tail
          (fun b hb => by simpa using h.2 b hb)]
    | blobValue bs => simp [inRange] at h
  | fixedStringField bl =>
    cases v with
    | intValue i => simp [inRange] at h
    | floatValue bits => simp [inRange] at h
    | stringValue bs =>
      simp only [inRange, Bool.and_eq_true, decide_eq_true_eq,
        List.all_eq_true] at h
      simp only [encodeValue, decodeValue]
      rw [← h.1]
      rw [readBytes_flatMap bs tail (fun b hb => by simpa using h.2 b hb)]
    | blobValue bs => simp [inRange] at h
  | blobField lb =>
    cases v with
    | intValue i => simp [inRange] at h
    | floatValue bits => simp [inRange] at h
    | stringValue bs => simp [inRange] at h
    | blobValue bs =>
      simp only [inRange, Bool.and_eq_true, decide_eq_true_eq,
        List.all_eq_true] at h
      simp only [encodeValue, decodeValue, FieldDesc.bitWidth,
        List.append_assoc,
        readBits_natToBits lb bs.length (bs.flatMap (natToBits 8) ++ tail) h.1,
        readBytes_flatMap bs tail
          (fun b hb => by simpa using h.2 b hb)]
  | fixedBlobField bl =>
    cases v with
    | intValue i => simp [inRange] at h
    | floatValue bits => simp [inRange] at h
    | stringValue bs => simp [inRange] at h
    | blobValue bs =>
      simp only [inRange, Bool.and_eq_true, decide_eq_true_eq,
        List.all_eq_true] at h
      simp only [encodeValue, decodeValue]
      rw [← h.1]
      rw [readBytes_flatMap bs tail (fun b hb => by simpa using h.2 b hb)]

/-- Unpacking the packing of one in-range record recovers the record. -/
theorem decodeRecord_encodeRecord (descs : List FieldDesc)
    (vs : List FieldValue) (tail : List Bool)
    (h : recordInRange descs vs = true) :
    decodeRecord descs (encodeRecord descs vs ++ tail) = some (vs, tail) := by
  induction descs generalizing vs tail with
  | nil =>
    cases vs with
    | nil => simp [encodeRecord, decodeRecord]
    | cons v vs2 => simp [recordInRange] at h
  | cons d ds ih =>
    cases vs with
    | nil => simp [recordInRange] at h
    | cons v vs2 =>
      simp only [recordInRange, Bool.and_eq_true] at h
      simp only [encodeRecord, List.append_assoc, decodeRecord,
        decodeValue_encodeValue d v _ h.1, ih vs2 tail h.2]

/-- Decoding the packed concatenation of in-range records recovers the
record array. -/
theorem decodeRecords_encodeRecords (descs : List FieldDesc)
    (records : List (List FieldValue))
    (h : ∀ r ∈ records, recordInRange descs r = true) :
    decodeRecords descs records.length (encodeRecords descs records) =
      some records := by
  induction records with
  | nil => simp [encodeRecords, decodeRecords]
  | cons r rs ih =>
    have hr : recordInRange descs r = true := h r (by simp)
    have hrs : ∀ x ∈ rs, recordInRange descs x = true :=
      fun x hx => h x (by simp [hx])
    simp only [encodeRecords, List.flatMap_cons, List.length_cons,
      decodeRecords, decodeRecord_encodeRecord descs r _ hr]
    have ih2 := ih hrs
    simp only [encodeRecords] at ih2
    simp only [ih2]

/-- C3: for every descriptor list and every array of in-range records,
decoding the encoding returns the array exactly — including boundary
values for scaled integers and zero-length strings — with scaled integers
stored as `stored = rawValue - min` on write and recovered as
`rawValue = stored + min` on read. -/
theorem codec_decode_encode_id (descs : List FieldDesc)
    (records : List (List FieldValue))
    (h : ∀ r ∈ records, recordInRange descs r = true) :
    decodeRecords descs records.length (encodeRecords descs records) =
      some records ∧
    (∀ minimum maximum v,
      encodeValue (FieldDesc.scaledIntegerField minimum maximum)
          (FieldValue.intValue v) =
        natToBits (bitsNeeded (maximum - minimum).toNat)
          (v - minimum).toNat) ∧
    (∀ minimum maximum (stored : Nat) (bs rest : List Bool),
      readBits (bitsNeeded (maximum - minimum).toNat) bs =
        some (stored, rest) →
      decodeValue (FieldDesc.scaledIntegerField minimum maximum) bs =
        some (FieldValue.intValue ((stored : Int) + minimum), rest)) := by
  refine ⟨decodeRecords_encodeRecords descs records h,
    fun _ _ _ => rfl, ?_⟩
  intro mn mx stored bs rest hr
  simp only [decodeValue, FieldDesc.bitWidth, hr]

/-- Witness for C3 at the sample descriptors and boundary-value records:
each record is in range, and decode of encode returns the records. -/
theorem codec_decode_encode_id_witness :
    (∀ r ∈ exampleRecords, recordInRange exampleDescs r = true) ∧
    decodeRecords exampleDescs exampleRecords.length
      (encodeRecords exampleDescs exampleRecords) = some exampleRecords :=
  ⟨by decide,
   (codec_decode_encode_id exampleDescs exampleRecords (by decide)).1⟩

/-- Counterexample for C5 as stated: on a read-only container, attaching
a fresh child fails with `NotOpenForWrite`, and that failure surfaces in
the `ReadOnly` category, not in `StructuralViolation`. -/
theorem attach_category_counterexample :
    Container.attach
      ⟨7, false, [⟨"", none, 7, true⟩, ⟨"c", none, 7, false⟩]⟩ 0 1 =
      .error CoreError.NotOpenForWrite ∧
    CoreError.category CoreError.NotOpenForWrite = ErrorCategory.ReadOnly ∧
    CoreError.category CoreError.NotOpenForWrite ≠
      ErrorCategory.StructuralViolation :=
  ⟨rfl, rfl, by decide⟩

/-- C5 (amended): `attach` fails with `AlreadyAttached` if the child
already has a parent; failing that, with `ForeignContainer` if child and
parent belong to different containers; failing that, with `DuplicateName`
if a sibling under the parent already uses the child's element name;
failing that, with `NotOpenForWrite` if the container is read-only.  The
first three failures surface in the `StructuralViolation` error category,
while `NotOpenForWrite` surfaces in the `ReadOnly` category. -/
theorem attach_failure_spec (c : Container) (pid chid : Nat)
    (p ch : TreeNode) (hp : c.nodes[pid]? = some p)
    (hch : c.nodes[chid]? = some ch) :
    (ch.parentLink.isSome = true →
      Container.attach c pid chid = .error CoreError.AlreadyAttached) ∧
    (ch.attached = false → ch.parentLink = none →
      ch.containerId ≠ p.containerId →
      Container.attach c pid chid = .error CoreError.ForeignContainer) ∧
    (ch.attached = false → ch.parentLink = none →
      ch.containerId = p.containerId →
      c.hasChildNamed pid ch.elementName = true →
      Container.attach c pid chid = .error CoreError.DuplicateName) ∧
    (ch.attached = false → ch.parentLink = none →
      ch.containerId = p.containerId →
      c.hasChildNamed pid ch.elementName = false → c.isWritable = false →
      Container.attach c pid chid = .error CoreError.NotOpenForWrite) ∧
    CoreError.category CoreError.AlreadyAttached =
      ErrorCategory.StructuralViolation ∧
    CoreError.category CoreError.ForeignContainer =
      ErrorCategory.StructuralViolation ∧
    CoreError.category CoreError.DuplicateName =
      ErrorCategory.StructuralViolation ∧
    CoreError.category CoreError.NotOpenForWrite = ErrorCategory.ReadOnly := by
  refine ⟨?_, ?_, ?_, ?_, rfl, rfl, rfl, rfl⟩
  · intro h
    unfold Container.attach
    rw [hp, hch]
    simp only [h, Bool.or_true, if_true]
  · intro h1 h2 h3
    unfold Container.attach
    rw [hp, hch]
    simp only [h1, h2, Option.isSome_none, Bool.or_self, Bool.false_eq_true,
      if_false]
    rw [if_pos (by simpa using h3)]
  · intro h1 h2 h3 h4
    unfold Container.attach
    rw [hp, hch]
    simp only [h1, h2, Option.isSome_none, Bool.or_self, Bool.false_eq_true,
      if_false]
    rw [if_neg (by simp [h3]), if_pos h4]
  · intro h1 h2 h3 h4 h5
    unfold Container.attach
    rw [hp, hch]
    simp only [h1, h2, Option.isSome_none, Bool.or_self, Bool.false_eq_true,
      if_false]
    rw [if_neg (by simp [h3]), if_neg (by simp [h4]),
      if_pos (by simp [h5])]

/-- Witness for C5 (amended) at concrete containers, one per failure. -/
theorem attach_failure_spec_witness :
    Container.attach
      ⟨4, true, [⟨"", none, 4, true⟩, ⟨"a", some 0, 4, true⟩]⟩ 0 1 =
      .error CoreError.AlreadyAttached ∧
    Container.attach
      ⟨4, true, [⟨"", none, 4, true⟩, ⟨"b", none, 9, false⟩]⟩ 0 1 =
      .error CoreError.ForeignContainer ∧
    Container.attach
      ⟨4, true, [⟨"", none, 4, true⟩, ⟨"c", some 0, 4, true⟩,
        ⟨"c", none, 4, false⟩]⟩ 0 2 =
      .error CoreError.DuplicateName ∧
    Container.attach
      ⟨4, false, [⟨"", none, 4, true⟩, ⟨"d", none, 4, false⟩]⟩ 0 1 =
      .error CoreError.NotOpenForWrite :=
  ⟨(attach_failure_spec
      ⟨4, true, [⟨"", none, 4, true⟩, ⟨"a", some 0, 4, true⟩]⟩ 0 1
      ⟨"", none, 4, true⟩ ⟨"a", some 0, 4, true⟩ rfl rfl).1 rfl,
   (attach_failure_spec
      ⟨4, true, [⟨"", none, 4, true⟩, ⟨"b", none, 9, false⟩]⟩ 0 1
      ⟨"", none, 4, true⟩ ⟨"b", none, 9, false⟩ rfl rfl).2.1
      rfl rfl (by decide),
   (attach_failure_spec
      ⟨4, true, [⟨"", none, 4, true⟩, ⟨"c", some 0, 4, true⟩,
        ⟨"c", none, 4, false⟩]⟩ 0 2
      ⟨"", none, 4, true⟩ ⟨"c", none, 4, false⟩ rfl rfl).2.2.1
      rfl rfl rfl rfl,
   (attach_failure_spec
      ⟨4, false, [⟨"", none, 4, true⟩, ⟨"d", none, 4, false⟩]⟩ 0 1
      ⟨"", none, 4, true⟩ ⟨"d", none, 4, false⟩ rfl rfl).2.2.2.1
      rfl rfl rfl rfl rfl⟩

/-- Witness for C4 at `pageDataSize = 1020`, `checksumSize = 4`. -/
theorem physicalOffset_spec_witness :
    physicalOffset 1020 4 100 < physicalOffset 1020 4 500 ∧
    physicalOffset 1020 4 2040 % 1024 < 1020 ∧
    physicalOffset 1020 4 1020 - physicalOffset 1020 4 0 = 1024 :=
  ⟨(physicalOffset_spec 1020 4 100 500 2040 (by decide)).2.1 (by decide),
   (physicalOffset_spec 1020 4 100 500 2040 (by decide)).2.2.1,
   (physicalOffset_spec 1020 4 100 500 2040 (by decide)).2.2.2⟩

end E57
